import Mathlib

/- A shallow embedding of the repository's CSV-to-JSON converter
   (titanic/titanic.py and titanic/titanic_bigdata.py).

   A file is modelled as a path together with an optional list of text lines
   (none when the path does not exist, so opening it raises the missing-file
   error).  Each line is newline-terminated on disk; the stored strings carry
   the characters before the newline.  Cells are the comma-separated fragments
   of a line.  A cell is missing when it is the empty string, matching the
   dataset's empty fields that the pandas reader turns into NaN.

   Numeric cell values are modelled as exact rationals written in the decimal
   scaled form m / 10 ^ e, which also represents every dyadic rational
   m / 2 ^ k (as m * 5 ^ k / 10 ^ k); parsing is exact, and the float32 cast
   performed by the chunked converter's dtype optimisation is modelled as
   correct rounding to a 24-bit binary significand (round half to even),
   exactly the rounding the astype call performs on values in the normal
   float32 range.  Overflow to infinity and subnormal underflow are outside
   the range exercised here and are not modelled. -/

/-! ### Exact decimal-scaled rationals -/

/-- A rational number written as m / 10 ^ e.  Constructed only through
decNorm, so that e is minimal and equal values share one representation. -/
structure Dec where
  m : Int
  e : Nat
deriving DecidableEq, Repr

/-- Strip factors of ten from the representation; fuel-driven so that the
kernel can evaluate it. -/
def decNormAux : Nat → Int → Nat → Dec
  | 0, m, e => ⟨m, e⟩
  | fuel + 1, m, e =>
    if e = 0 then ⟨m, 0⟩
    else if m % 10 = 0 then decNormAux fuel (m / 10) (e - 1)
    else ⟨m, e⟩

/-- Normalised constructor for Dec. -/
def decNorm (m : Int) (e : Nat) : Dec := decNormAux e m e

/-- Scale p / q by powers of two until 2 ^ 23 <= p / q < 2 ^ 24, adjusting the
binary exponent L so that the represented value (p / q) * 2 ^ (L - 23) is
unchanged.  Fuel-driven loop. -/
def f32Scale : Nat → Nat → Nat → Int → Nat × Nat × Int
  | 0, p, q, L => (p, q, L)
  | fuel + 1, p, q, L =>
    if 16777216 * q ≤ p then f32Scale fuel p (2 * q) (L + 1)
    else if p < 8388608 * q then f32Scale fuel (2 * p) q (L - 1)
    else (p, q, L)

/-- Round p / q to the nearest integer, ties to even. -/
def roundHalfEvenDiv (p q : Nat) : Nat :=
  let d := p / q
  let r := p % q
  if 2 * r < q then d
  else if q < 2 * r then d + 1
  else if d % 2 = 0 then d
  else d + 1

/-- Round a Dec value to the nearest float32 (24-bit significand, round half
to even), returned exactly as a Dec. -/
def toFloat32 (x : Dec) : Dec :=
  if x.m = 0 then ⟨0, 0⟩
  else
    let a := x.m.natAbs
    let q0 := 10 ^ x.e
    let pql := f32Scale (a + q0 + 64) a q0 23
    let m1 := roundHalfEvenDiv pql.1 pql.2.1
    let mL : Nat × Int := if m1 = 16777216 then (8388608, pql.2.2 + 1) else (m1, pql.2.2)
    let s : Int := if x.m < 0 then -1 else 1
    if 23 ≤ mL.2 then decNorm (s * (mL.1 : Int) * 2 ^ (mL.2 - 23).toNat) 0
    else decNorm (s * (mL.1 : Int) * 5 ^ (23 - mL.2).toNat) (23 - mL.2).toNat

/-! ### Character-level parsing primitives (model of the pandas tokenizer) -/

/-- Split a character list at every occurrence of sep. -/
def splitOnCharAux (sep : Char) : List Char → List Char → List (List Char)
  | [], acc => [acc.reverse]
  | c :: cs, acc =>
    if c = sep then acc.reverse :: splitOnCharAux sep cs []
    else splitOnCharAux sep cs (c :: acc)

/-- Split a string at every occurrence of sep. -/
def splitOnChar (sep : Char) (s : String) : List String :=
  (splitOnCharAux sep s.data []).map String.mk

/-- Split a CSV line into its cells. -/
def splitComma (s : String) : List String := splitOnChar ',' s

def isDigitChar (c : Char) : Bool := 48 ≤ c.toNat && c.toNat ≤ 57

def digitVal (c : Char) : Nat := c.toNat - 48

/-- Read a digit string (most significant first) into a number. -/
def natFromChars : List Char → Nat → Option Nat
  | [], acc => some acc
  | c :: cs, acc =>
    if isDigitChar c then natFromChars cs (10 * acc + digitVal c) else none

/-- Parse a nonempty all-digit string. -/
def parseNatC (s : String) : Option Nat :=
  match s.data with
  | [] => none
  | cs => natFromChars cs 0

/-- Parse an optionally signed integer literal, the cell shape pandas reads
into an int64 column. -/
def parseIntC (s : String) : Option Int :=
  match s.data with
  | '-' :: rest => if rest = [] then none else (natFromChars rest 0).map fun n => -(n : Int)
  | '+' :: rest => if rest = [] then none else (natFromChars rest 0).map fun n => (n : Int)
  | _ => (parseNatC s).map fun n => (n : Int)

/-- Parse an unsigned decimal literal (digits, optionally a dot and digits). -/
def parseUDec (s : String) : Option Dec :=
  match splitOnChar '.' s with
  | [a] => (parseNatC a).map fun n => decNorm (n : Int) 0
  | [a, b] =>
    match parseNatC a, parseNatC b with
    | some n, some fr => some (decNorm ((n : Int) * 10 ^ b.length + (fr : Int)) b.length)
    | _, _ => none
  | _ => none

/-- Parse an optionally signed decimal literal, the cell shape pandas reads
into a float64 column; the value is represented exactly. -/
def parseDecC (s : String) : Option Dec :=
  match s.data with
  | '-' :: rest => (parseUDec (String.mk rest)).map fun d => ⟨-d.m, d.e⟩
  | '+' :: rest => parseUDec (String.mk rest)
  | _ => parseUDec s

/-! ### The data model: values, dtypes, dataframes -/

/-- A scalar cell value of a dataframe.  nan is the float NaN that pandas
puts in place of a missing cell; null is the explicit None produced by the
where-notnull normalisation step. -/
inductive Value where
  | int (n : Int)
  | float (d : Dec)
  | nan
  | str (s : String)
  | null
deriving DecidableEq, Repr

inductive Dtype where
  | int64
  | uint8
  | uint16
  | int8
  | int16
  | float64
  | float32
  | obj
deriving DecidableEq, Repr

/-- How a raw column is converted: as integers, as floats (missing cells
becoming NaN), or kept as text (missing cells becoming NaN). -/
inductive ParseMode where
  | asInt
  | asFloat
  | asObj
deriving DecidableEq, Repr

/-- A cell is missing exactly when it is empty. -/
def isMissing (s : String) : Bool := s == ""

/-- Column type inference, as pandas does it per column: all cells present
and integral gives int64; all cells numeric or missing gives float64 (an
all-missing column is an all-NaN float64 column); anything else is object. -/
def inferMode (cells : List String) : ParseMode :=
  if cells.isEmpty then .asObj
  else if cells.all fun c => !(isMissing c) && (parseIntC c).isSome then .asInt
  else if cells.all fun c => isMissing c || (parseDecC c).isSome then .asFloat
  else .asObj

def inferDtype : ParseMode → Dtype
  | .asInt => .int64
  | .asFloat => .float64
  | .asObj => .obj

/-- Convert one raw cell under the column's parse mode. -/
def parseCell (mode : ParseMode) (s : String) : Value :=
  match mode with
  | .asInt => .int ((parseIntC s).getD 0)
  | .asFloat => if isMissing s then .nan else .float ((parseDecC s).getD ⟨0, 0⟩)
  | .asObj => if isMissing s then .nan else .str s

/-- The j-th raw column; rows shorter than the header are padded with
missing cells, as the pandas reader pads short rows with NaN. -/
def colCells (rows : List (List String)) (j : Nat) : List String :=
  rows.map fun r => r.getD j ""

structure DFrame where
  header : List String
  dtypes : List Dtype
  rows : List (List Value)
deriving DecidableEq, Repr

/-- Convert one raw row against the column modes inferred from rows. -/
def parseRow (h : List String) (rows : List (List String)) (r : List String) : List Value :=
  (List.range h.length).map fun j => parseCell (inferMode (colCells rows j)) (r.getD j "")

/-- Build the dataframe for a header and a block of raw rows (type inference
runs over exactly that block, as it does for each chunk of a chunked read). -/
def parseRows (h : List String) (rows : List (List String)) : DFrame :=
  { header := h
    dtypes := (List.range h.length).map fun j => inferDtype (inferMode (colCells rows j))
    rows := rows.map (parseRow h rows) }

/-! ### Python exceptions -/

inductive PyExc where
  | fileNotFoundError (msg : String)
  | emptyDataError (msg : String)
  | parserError (msg : String)
  | indexError (msg : String)
  | valueError (msg : String)
  | exception (msg : String)
deriving DecidableEq, Repr

/-- The text a Python str call renders for the exception. -/
def PyExc.message : PyExc → String
  | .fileNotFoundError m => m
  | .emptyDataError m => m
  | .parserError m => m
  | .indexError m => m
  | .valueError m => m
  | .exception m => m

/-- The Python type name of the exception. -/
def PyExc.kind : PyExc → String
  | .fileNotFoundError _ => "FileNotFoundError"
  | .emptyDataError _ => "EmptyDataError"
  | .parserError _ => "ParserError"
  | .indexError _ => "IndexError"
  | .valueError _ => "ValueError"
  | .exception _ => "Exception"

/-- The kind of error a computation failed with, if it failed. -/
def errKind {α : Type} : Except PyExc α → Option String
  | .error e => some e.kind
  | .ok _ => none

deriving instance DecidableEq for Except

set_option synthInstance.maxSize 1000

/-! ### Files and the pandas reader -/

/-- A path plus the lines of the file, or none when the path does not exist. -/
structure FileInput where
  path : String
  content : Option (List String)
deriving DecidableEq, Repr

/-- The non-blank lines of the file (the reader skips blank lines). -/
def contentLines (f : FileInput) : List String :=
  (f.content.getD []).filter fun l => !(l == "")

/-- The column names of the file, from its first non-blank line. -/
def headerOf (f : FileInput) : List String :=
  splitComma ((contentLines f).headD "")

/-- The raw tokenized data lines of the file, one cell list per non-blank
line after the header, before any index-column handling. -/
def rawRowsOf (f : FileInput) : List (List String) :=
  ((contentLines f).drop 1).map splitComma

/-- How many leading index columns the reader infers: when the first data
row is wider than the header (the documented trailing-delimiter case), the
reader uses the leading extra columns as the row index; otherwise none. -/
def numIndexCols (f : FileInput) : Nat :=
  ((rawRowsOf f).headD []).length - (headerOf f).length

/-- The data cells backing the table columns: each raw data line with its
leading index cells dropped (the to-dict records conversion drops the index,
so only these cells reach the output).  One entry per data line. -/
def dataRowsOf (f : FileInput) : List (List String) :=
  (rawRowsOf f).map fun r => r.drop (numIndexCols f)

/-- Open and tokenize the file: a missing path raises FileNotFoundError and
a file with no non-blank lines raises EmptyDataError.  The expected row
width is established by the header and the first data row: a file whose data
rows are uniformly wider than the header is read successfully with the
leading extra columns as the row index, so the expected width is the larger
of the two, and only a data row with more fields than that - a row-width
inconsistency - raises the tokenizer's ParserError.  Otherwise the header
and the data cells of every row are returned; rows with fewer fields are
padded with missing cells downstream. -/
def readRaw (f : FileInput) : Except PyExc (List String × List (List String)) :=
  match f.content with
  | none => .error (.fileNotFoundError f.path)
  | some _ =>
    match contentLines f with
    | [] => .error (.emptyDataError "No columns to parse from file")
    | _ :: _ =>
      if (rawRowsOf f).any
          (fun r => decide ((headerOf f).length + numIndexCols f < r.length)) then
        .error (.parserError "Error tokenizing data")
      else .ok (headerOf f, dataRowsOf f)

/-- Whole-file pandas read: tokenize, then infer column types over all rows. -/
def read_csv (f : FileInput) : Except PyExc DFrame :=
  match readRaw f with
  | .error e => .error e
  | .ok (h, rows) => .ok (parseRows h rows)

/-- Contiguous blocks of at most R elements, in order; fuel-driven so that
the kernel can evaluate it. -/
def chunksOfAux {α : Type} (R : Nat) : Nat → List α → List (List α)
  | 0, _ => []
  | _ + 1, [] => []
  | fuel + 1, a :: l => ((a :: l).take R) :: chunksOfAux R fuel ((a :: l).drop R)

/-- Contiguous blocks of at most R elements, in order. -/
def chunksOf {α : Type} (R : Nat) (l : List α) : List (List α) :=
  if R = 0 then [] else chunksOfAux R l.length l

/-- Chunked pandas read with chunksize R: one dataframe per block of R data
rows, column types inferred per chunk. -/
def read_csv_chunks (f : FileInput) (R : Nat) : Except PyExc (List DFrame) :=
  match readRaw f with
  | .error e => .error e
  | .ok (h, rows) => .ok ((chunksOf R rows).map fun ch => parseRows h ch)

/-! ### Null normalisation and records -/

/-- The where-notnull step: NaN becomes None, everything else is kept. -/
def notnullNone : Value → Value
  | .nan => .null
  | v => v

/-- Apply the where-notnull normalisation to a whole dataframe. -/
def dfWhereNotNull (df : DFrame) : DFrame :=
  { df with rows := df.rows.map fun r => r.map notnullNone }

/-- One output record: ordered field name / value pairs. -/
abbrev Record := List (String × Value)

/-- The to-dict records conversion of a dataframe. -/
def toRecords (df : DFrame) : List Record :=
  df.rows.map fun r => df.header.zip r

/-! ### titanic.py -/

/-- The except chain shared by csv_to_json_formatter and csv_row_to_json:
FileNotFoundError is re-raised with the path in the message, EmptyDataError
becomes a ValueError, and every other exception - including the IndexError
raised inside the try block - is re-raised as a plain Exception wrapping the
original message. -/
def translate_errors (path : String) (e : PyExc) : PyExc :=
  match e with
  | .fileNotFoundError _ => .fileNotFoundError ("CSV 파일을 찾을 수 없습니다: " ++ path)
  | .emptyDataError _ => .valueError "CSV 파일이 비어있습니다."
  | e => .exception ("CSV 파일 처리 중 오류가 발생했습니다: " ++ e.message)

/-- Whole-file conversion: read, normalise NaN to None, return the records. -/
def csv_to_json_formatter (f : FileInput) : Except PyExc (List Record) :=
  match read_csv f with
  | .error e => .error (translate_errors f.path e)
  | .ok df => .ok (toRecords (dfWhereNotNull df))

/-- Single-row conversion: read, check the index (raising IndexError inside
the try block when it is out of range), select the row, normalise, return its
record.  The whole body runs under the same except chain as the whole-file
conversion. -/
def csv_row_to_json (f : FileInput) (row_index : Int) : Except PyExc Record :=
  let body : Except PyExc Record :=
    match read_csv f with
    | .error e => .error e
    | .ok df =>
      if row_index < 0 ∨ (df.rows.length : Int) ≤ row_index then
        .error (.indexError ("행 인덱스가 범위를 벗어났습니다. 유효 범위: 0-" ++
          toString ((df.rows.length : Int) - 1)))
      else
        .ok (df.header.zip ((df.rows.getD row_index.toNat []).map notnullNone))
  match body with
  | .error e => .error (translate_errors f.path e)
  | .ok r => .ok r

/-! ### titanic_bigdata.py -/

structure BigDataCSVConverter where
  chunk_size : Nat := 10000
  max_memory_mb : Nat := 500
deriving DecidableEq, Repr

/-- The j-th column of a block of value rows. -/
def colVals (rows : List (List Value)) (j : Nat) : List Value :=
  rows.map fun r => r.getD j .null

/-- The integer entries of a column (an int64 column consists of these). -/
def intCells (cells : List Value) : List Int :=
  cells.filterMap fun v =>
    match v with
    | .int n => some n
    | _ => none

def colMin : List Int → Int
  | [] => 0
  | x :: xs => xs.foldl min x

def colMax : List Int → Int
  | [] => 0
  | x :: xs => xs.foldl max x

/-- The dtype the optimisation step picks for an int64 column with the given
minimum and maximum. -/
def narrowIntDtype (mn mx : Int) : Dtype :=
  if 0 ≤ mn then
    if mx < 256 then .uint8
    else if mx < 65536 then .uint16
    else .int64
  else
    if -128 < mn ∧ mx < 128 then .int8
    else if -32768 < mn ∧ mx < 32768 then .int16
    else .int64

/-- The dtype of one column after the optimisation step. -/
def optColDtype (dt : Dtype) (cells : List Value) : Dtype :=
  match dt with
  | .int64 =>
    if (intCells cells).isEmpty then .int64
    else narrowIntDtype (colMin (intCells cells)) (colMax (intCells cells))
  | .float64 => .float32
  | d => d

/-- The value of one cell after the optimisation step: the astype float32
cast rounds float64 column entries to single precision, integer casts keep
every value (the guards guarantee the narrower type holds them). -/
def optValue (dt : Dtype) (v : Value) : Value :=
  match dt, v with
  | .float64, .float d => .float (toFloat32 d)
  | _, v => v

/-- The dtype optimisation pass over a dataframe, column by column. -/
def optimize_dtypes (df : DFrame) : DFrame :=
  { header := df.header
    dtypes := (List.range df.header.length).map fun j =>
      optColDtype (df.dtypes.getD j .obj) (colVals df.rows j)
    rows := df.rows.map fun r => (List.range df.header.length).map fun j =>
      optValue (df.dtypes.getD j .obj) (r.getD j .null) }

/-- What one chunk contributes: optimise dtypes, normalise NaN to None,
convert to records. -/
def chunkRecords (df : DFrame) : List Record :=
  toRecords (dfWhereNotNull (optimize_dtypes df))

/-- The per-chunk record sequences the converter emits for a file (empty when
the read fails). -/
def chunkOutputs (c : BigDataCSVConverter) (f : FileInput) : List (List Record) :=
  match read_csv_chunks f c.chunk_size with
  | .error _ => []
  | .ok dfs => dfs.map chunkRecords

/-- The statistics dictionary returned by the chunked conversion.  The
processing_time entry is the difference of two now calls taken at the same
point and is always zero; it is omitted. -/
structure Stats where
  total_rows : Nat
  chunk_count : Nat
  output_files : Nat
deriving DecidableEq, Repr

/-- Zero-pad a number to at least four digits, as the 04d format does. -/
def pad4 (n : Nat) : String :=
  let s := toString n
  if s.length < 4 then String.mk (List.replicate (4 - s.length) '0') ++ s else s

/-- Chunk processing loop: read chunk dataframes, transform each into its
records; with split_files each chunk k (1-based) is written to
output_dir/chunk_kkkk.json, otherwise all records accumulate and are written
once to output_dir/complete_data.json provided the accumulator is nonempty.
Returned artifacts are the written files with their record contents. -/
def process_large_file (c : BigDataCSVConverter) (f : FileInput) (output_dir : String)
    (split_files : Bool) : Except PyExc (Stats × List (String × List Record)) :=
  match read_csv_chunks f c.chunk_size with
  | .error e => .error e
  | .ok dfs =>
    let jsons := dfs.map chunkRecords
    let total_rows := (dfs.map fun d => d.rows.length).sum
    let chunk_count := dfs.length
    if split_files then
      .ok (⟨total_rows, chunk_count, chunk_count⟩,
        jsons.enum.map fun p => (output_dir ++ "/chunk_" ++ pad4 (p.1 + 1) ++ ".json", p.2))
    else
      .ok (⟨total_rows, chunk_count, 1⟩,
        if jsons.flatten.isEmpty then []
        else [(output_dir ++ "/complete_data.json", jsons.flatten)])

/-- Entry point of the chunked converter: checking the file size opens the
path (missing path raises FileNotFoundError); the size comparison against
max_memory_mb is commented out in the source, so every file takes the
chunk-processing path. -/
def convert_large_csv (c : BigDataCSVConverter) (f : FileInput) (output_dir : String)
    (split_files : Bool) : Except PyExc (Stats × List (String × List Record)) :=
  match f.content with
  | none => .error (.fileNotFoundError f.path)
  | some _ => process_large_file c f output_dir split_files

/-- Streaming conversion: the same per-chunk transformation, yielding the
rows of every chunk in order; modelled as the fully elaborated sequence. -/
def stream_json_processor (c : BigDataCSVConverter) (f : FileInput) :
    Except PyExc (List Record) :=
  match read_csv_chunks f c.chunk_size with
  | .error e => .error e
  | .ok dfs => .ok (dfs.map chunkRecords).flatten

/-- Bytes one stored line occupies on disk (its characters plus the
newline); the file is ASCII so characters are bytes. -/
def lineBytes (l : String) : Nat := l.length + 1

/-- Total size of the file, as os.path.getsize reports it. -/
def fileSizeOf (lines : List String) : Nat := (lines.map lineBytes).sum

/-- Row-count estimation: average the byte length of the first (up to) 1000
physical lines and divide the file size by that average, truncating.  The
average divides by the sample count with no guard, so a zero-line file fails
with a division-by-zero error, modelled as none. -/
def estimate_total_rows (lines : List String) : Option Nat :=
  let sample := (lines.take 1000).map lineBytes
  if sample.length = 0 then none
  else some (fileSizeOf lines * sample.length / sample.sum)

/-! ### Basic access lemmas -/

theorem getD_map_lt {α β : Type} (f : α → β) (l : List α) {i : Nat} (hi : i < l.length)
    (d : β) (da : α) : (l.map f).getD i d = f (l.getD i da) := by
  rw [List.getD_eq_getElem _ _ (by simpa using hi), List.getD_eq_getElem _ _ hi,
    List.getElem_map]

theorem parseRow_length (h : List String) (rows : List (List String)) (r : List String) :
    (parseRow h rows r).length = h.length := by
  simp [parseRow]

theorem parseRow_getD (h : List String) (rows : List (List String)) (r : List String)
    {j : Nat} (hj : j < h.length) :
    (parseRow h rows r).getD j .null = parseCell (inferMode (colCells rows j)) (r.getD j "") := by
  have hl : j < (parseRow h rows r).length := by simpa [parseRow_length] using hj
  rw [List.getD_eq_getElem _ _ hl]
  simp [parseRow]

theorem parseRows_header (h : List String) (rows : List (List String)) :
    (parseRows h rows).header = h := rfl

theorem parseRows_rows (h : List String) (rows : List (List String)) :
    (parseRows h rows).rows = rows.map (parseRow h rows) := rfl

theorem parseRows_rows_length (h : List String) (rows : List (List String)) :
    (parseRows h rows).rows.length = rows.length := by
  simp [parseRows]

theorem parseRows_dtypes_getD (h : List String) (rows : List (List String))
    {j : Nat} (hj : j < h.length) :
    (parseRows h rows).dtypes.getD j .obj = inferDtype (inferMode (colCells rows j)) := by
  have hl : j < ((parseRows h rows).dtypes).length := by simp [parseRows]; exact hj
  rw [List.getD_eq_getElem _ _ hl]
  simp [parseRows]

theorem optimize_dtypes_header (df : DFrame) : (optimize_dtypes df).header = df.header := rfl

theorem optimize_dtypes_rows_length (df : DFrame) :
    (optimize_dtypes df).rows.length = df.rows.length := by
  simp [optimize_dtypes]

theorem optimize_dtypes_dtypes_getD (df : DFrame) {j : Nat} (hj : j < df.header.length) :
    (optimize_dtypes df).dtypes.getD j .obj =
      optColDtype (df.dtypes.getD j .obj) (colVals df.rows j) := by
  have hl : j < ((optimize_dtypes df).dtypes).length := by simp [optimize_dtypes]; exact hj
  rw [List.getD_eq_getElem _ _ hl]
  simp [optimize_dtypes]

theorem optimize_dtypes_cell (df : DFrame) {i j : Nat} (hi : i < df.rows.length)
    (hj : j < df.header.length) :
    ((optimize_dtypes df).rows.getD i []).getD j .null =
      optValue (df.dtypes.getD j .obj) ((df.rows.getD i []).getD j .null) := by
  have h1 : ((optimize_dtypes df).rows.getD i []) =
      (List.range df.header.length).map fun j =>
        optValue (df.dtypes.getD j .obj) ((df.rows.getD i []).getD j .null) := by
    show ((df.rows.map _).getD i []) = _
    rw [getD_map_lt _ _ hi _ []]
  rw [h1]
  have hl : j < ((List.range df.header.length).map fun j =>
      optValue (df.dtypes.getD j .obj) ((df.rows.getD i []).getD j .null)).length := by
    simpa using hj
  rw [List.getD_eq_getElem _ _ hl]
  simp

theorem notnullNone_nan : notnullNone .nan = .null := rfl

theorem optValue_nan (dt : Dtype) : optValue dt .nan = .nan := by
  cases dt <;> rfl

theorem zip_getD (h : List String) (v : List Value) {j : Nat} (hj : j < h.length)
    (hv : j < v.length) :
    (h.zip v).getD j ("", .null) = (h.getD j "", v.getD j .null) := by
  have hl : j < (h.zip v).length := by rw [List.length_zip]; omega
  rw [List.getD_eq_getElem _ _ hl, List.getD_eq_getElem _ _ hj, List.getD_eq_getElem _ _ hv,
    List.getElem_zip]

/-! ### chunksOf lemmas -/

theorem chunksOfAux_flatten {α : Type} (R : Nat) (hR : 0 < R) :
    ∀ (fuel : Nat) (l : List α), l.length ≤ fuel → (chunksOfAux R fuel l).flatten = l := by
  intro fuel
  induction fuel with
  | zero =>
    intro l hl
    have : l = [] := List.length_eq_zero.mp (Nat.le_zero.mp hl)
    subst this
    rfl
  | succ fuel ih =>
    intro l hl
    match l with
    | [] => rfl
    | a :: t =>
      show (((a :: t).take R) :: chunksOfAux R fuel ((a :: t).drop R)).flatten = a :: t
      have hd : ((a :: t).drop R).length ≤ fuel := by
        rw [List.length_drop]
        simp only [List.length_cons] at hl ⊢
        omega
      simp only [List.flatten_cons, ih _ hd, List.take_append_drop]

theorem chunksOf_flatten {α : Type} {R : Nat} (hR : 0 < R) (l : List α) :
    (chunksOf R l).flatten = l := by
  unfold chunksOf
  rw [if_neg (Nat.pos_iff_ne_zero.mp hR)]
  exact chunksOfAux_flatten R hR l.length l le_rfl

theorem chunksOfAux_length {α : Type} (R : Nat) (hR : 0 < R) :
    ∀ (fuel : Nat) (l : List α), l.length ≤ fuel →
      (chunksOfAux R fuel l).length = (l.length + R - 1) / R := by
  intro fuel
  induction fuel with
  | zero =>
    intro l hl
    have : l = [] := List.length_eq_zero.mp (Nat.le_zero.mp hl)
    subst this
    show (0 : Nat) = (0 + R - 1) / R
    rw [Nat.zero_add, Nat.div_eq_of_lt (by omega)]
  | succ fuel ih =>
    intro l hl
    match l with
    | [] =>
      show (0 : Nat) = (0 + R - 1) / R
      rw [Nat.zero_add, Nat.div_eq_of_lt (by omega)]
    | a :: t =>
      show (chunksOfAux R fuel ((a :: t).drop R)).length + 1 = ((a :: t).length + R - 1) / R
      have hd : ((a :: t).drop R).length ≤ fuel := by
        rw [List.length_drop]
        simp only [List.length_cons] at hl ⊢
        omega
      rw [ih _ hd, List.length_drop]
      have hn : 1 ≤ (a :: t).length := by simp
      set n := (a :: t).length with hdefn
      rcases Nat.lt_or_ge R n with hgt | hle
      case inr =>
        have h1 : n - R = 0 := by omega
        have h2 : n + R - 1 = (n - 1) + R := by omega
        rw [h1, h2, Nat.add_div_right _ hR, Nat.div_eq_of_lt (by omega),
          Nat.div_eq_of_lt (by omega)]
      · have h2 : n + R - 1 = (n - 1) + R := by omega
        have h3 : (n - R) + R - 1 = (n - R - 1) + R := by omega
        have h4 : n - 1 = (n - R - 1) + R := by omega
        rw [h2, h3, Nat.add_div_right _ hR, Nat.add_div_right _ hR, h4,
          Nat.add_div_right _ hR]

theorem chunksOf_length {α : Type} {R : Nat} (hR : 0 < R) (l : List α) :
    (chunksOf R l).length = (l.length + R - 1) / R := by
  unfold chunksOf
  rw [if_neg (Nat.pos_iff_ne_zero.mp hR)]
  exact chunksOfAux_length R hR l.length l le_rfl

theorem chunksOf_mem_mem {α : Type} {R : Nat} (hR : 0 < R) {l : List α}
    {c : List α} (hc : c ∈ chunksOf R l) {x : α} (hx : x ∈ c) : x ∈ l := by
  rw [← chunksOf_flatten hR l]
  exact List.mem_flatten.mpr ⟨c, hc, hx⟩

/-! ### Pointwise transport through flattened chunk outputs -/

theorem flatten_map_getD {α β : Type} (F : List α → List β) (P : α → β → Prop)
    (da : α) (db : β) (hlen : ∀ c, (F c).length = c.length)
    (hP : ∀ (c : List α) (i : Nat), i < c.length → P (c.getD i da) ((F c).getD i db)) :
    ∀ (chunks : List (List α)) (i : Nat), i < chunks.flatten.length →
      P (chunks.flatten.getD i da) (((chunks.map F).flatten).getD i db) := by
  intro chunks
  induction chunks with
  | nil => intro i hi; simp at hi
  | cons c rest ih =>
    intro i hi
    simp only [List.map_cons, List.flatten_cons]
    rcases Nat.lt_or_ge i c.length with hlt | hge
    · rw [List.getD_append _ _ _ _ hlt, List.getD_append _ _ _ _ (by rw [hlen]; exact hlt)]
      exact hP c i hlt
    · rw [List.getD_append_right _ _ _ _ hge, List.getD_append_right _ _ _ _ (by rw [hlen]; exact hge),
        hlen]
      apply ih
      simp only [List.flatten_cons, List.length_append] at hi
      omega

/-! ### Reader lemmas -/

theorem readRaw_content_none {f : FileInput} (hc : f.content = none) :
    readRaw f = .error (.fileNotFoundError f.path) := by
  unfold readRaw
  rw [hc]

theorem readRaw_ok {f : FileInput} {p : List String × List (List String)}
    (h : readRaw f = .ok p) : p = (headerOf f, dataRowsOf f) := by
  unfold readRaw at h
  split at h
  · exact absurd h (by simp)
  · split at h
    · exact absurd h (by simp)
    · split at h
      · exact absurd h (by simp)
      · injection h with h2
        exact h2.symm

theorem readRaw_ok_content {f : FileInput} {p : List String × List (List String)}
    (h : readRaw f = .ok p) : f.content ≠ none := by
  intro hc
  rw [readRaw_content_none hc] at h
  exact absurd h (by simp)

theorem read_csv_ok_raw {f : FileInput} {df : DFrame} (h : read_csv f = .ok df) :
    readRaw f = .ok (headerOf f, dataRowsOf f) := by
  unfold read_csv at h
  cases hr : readRaw f with
  | error e => rw [hr] at h; exact absurd h (by simp)
  | ok p => rw [readRaw_ok hr]

theorem read_csv_ok_df {f : FileInput} {df : DFrame} (h : read_csv f = .ok df) :
    df = parseRows (headerOf f) (dataRowsOf f) := by
  have hr := read_csv_ok_raw h
  unfold read_csv at h
  rw [hr] at h
  simp only at h
  injection h with h2
  exact h2.symm

theorem read_csv_chunks_of_read {f : FileInput} {df : DFrame}
    (h : read_csv f = .ok df) (R : Nat) :
    read_csv_chunks f R =
      .ok ((chunksOf R (dataRowsOf f)).map fun ch => parseRows (headerOf f) ch) := by
  have hr := read_csv_ok_raw h
  unfold read_csv_chunks
  rw [hr]

/-! ### Row shape lemmas -/

/-- The record the whole-file conversion produces for one raw row. -/
def formatRow (h : List String) (rows : List (List String)) (r : List String) : Record :=
  h.zip ((parseRow h rows r).map notnullNone)

/-- The record the chunked conversion produces for one raw row of a chunk. -/
def chunkRow (h : List String) (block : List (List String)) (r : List String) : Record :=
  h.zip (((List.range h.length).map fun j =>
    optValue (inferDtype (inferMode (colCells block j)))
      (parseCell (inferMode (colCells block j)) (r.getD j ""))).map notnullNone)

theorem formatter_records (f : FileInput) {df : DFrame} (h : read_csv f = .ok df) :
    csv_to_json_formatter f =
      .ok ((dataRowsOf f).map (formatRow (headerOf f) (dataRowsOf f))) := by
  have hdf := read_csv_ok_df h
  unfold csv_to_json_formatter
  rw [h, hdf]
  simp only [toRecords, dfWhereNotNull, parseRows_header, parseRows_rows, List.map_map]
  rfl

theorem chunkRecords_parseRows (h : List String) (block : List (List String)) :
    chunkRecords (parseRows h block) = block.map (chunkRow h block) := by
  unfold chunkRecords toRecords dfWhereNotNull
  simp only [optimize_dtypes_header, parseRows_header]
  have hrows : (optimize_dtypes (parseRows h block)).rows =
      block.map fun r => (List.range h.length).map fun j =>
        optValue ((parseRows h block).dtypes.getD j .obj)
          ((parseRow h block r).getD j .null) := by
    simp only [optimize_dtypes, parseRows_header, parseRows_rows, List.map_map]
    rfl
  rw [hrows]
  simp only [List.map_map]
  apply List.map_congr_left
  intro r hr
  simp only [Function.comp]
  unfold chunkRow
  congr 1
  congr 1
  apply List.map_congr_left
  intro j hj
  rw [List.mem_range] at hj
  rw [parseRows_dtypes_getD h block hj, parseRow_getD h block r hj]

/-! ### Missing-cell lemmas -/

theorem inferMode_ne_asInt {cells : List String} {c : String} (hc : c ∈ cells)
    (hm : isMissing c = true) : inferMode cells ≠ .asInt := by
  intro he
  unfold inferMode at he
  split at he
  · exact absurd he (by simp)
  · split at he
    · next hall =>
      have := List.all_eq_true.mp hall c hc
      rw [hm] at this
      simp at this
    · split at he
      · exact absurd he (by simp)
      · exact absurd he (by simp)

theorem parseCell_missing {mode : ParseMode} (hmode : mode ≠ .asInt) {s : String}
    (hs : isMissing s = true) : parseCell mode s = .nan := by
  cases mode with
  | asInt => exact absurd rfl hmode
  | asFloat => simp [parseCell, hs]
  | asObj => simp [parseCell, hs]

theorem formatRow_missing {h : List String} {rows : List (List String)} {r : List String}
    {j : Nat} (hj : j < h.length) (hmem : r.getD j "" ∈ colCells rows j)
    (hmiss : isMissing (r.getD j "") = true) :
    (formatRow h rows r).getD j ("", .null) = (h.getD j "", .null) := by
  unfold formatRow
  have hlen : j < ((parseRow h rows r).map notnullNone).length := by
    simpa [parseRow_length] using hj
  rw [zip_getD h _ hj hlen, getD_map_lt _ _ (by simpa [parseRow_length] using hj) _ .null,
    parseRow_getD h rows r hj,
    parseCell_missing (inferMode_ne_asInt hmem hmiss) hmiss, notnullNone_nan]

theorem chunkRow_missing {h : List String} {block : List (List String)} {r : List String}
    {j : Nat} (hj : j < h.length) (hmem : r.getD j "" ∈ colCells block j)
    (hmiss : isMissing (r.getD j "") = true) :
    (chunkRow h block r).getD j ("", .null) = (h.getD j "", .null) := by
  unfold chunkRow
  have hr : j < ((List.range h.length).map fun j =>
      optValue (inferDtype (inferMode (colCells block j)))
        (parseCell (inferMode (colCells block j)) (r.getD j ""))).length := by
    simpa using hj
  have hlen : j < (((List.range h.length).map fun j =>
      optValue (inferDtype (inferMode (colCells block j)))
        (parseCell (inferMode (colCells block j)) (r.getD j ""))).map notnullNone).length := by
    simpa using hj
  rw [zip_getD h _ hj hlen, getD_map_lt _ _ hr _ .null]
  have hcell : ((List.range h.length).map fun j =>
      optValue (inferDtype (inferMode (colCells block j)))
        (parseCell (inferMode (colCells block j)) (r.getD j ""))).getD j .null =
      optValue (inferDtype (inferMode (colCells block j)))
        (parseCell (inferMode (colCells block j)) (r.getD j "")) := by
    rw [List.getD_eq_getElem _ _ (by simpa using hj)]
    simp
  rw [hcell, parseCell_missing (inferMode_ne_asInt hmem hmiss) hmiss, optValue_nan,
    notnullNone_nan]

theorem getD_mem_colCells (rows : List (List String)) {i : Nat} (hi : i < rows.length)
    (j : Nat) : (rows.getD i []).getD j "" ∈ colCells rows j := by
  unfold colCells
  rw [List.getD_eq_getElem _ _ hi]
  exact List.mem_map.mpr ⟨rows[i], List.getElem_mem hi, rfl⟩

/-! ### Chunked-converter structural lemmas -/

theorem chunkOutputs_of_read {c : BigDataCSVConverter} {f : FileInput} {df : DFrame}
    (h : read_csv f = .ok df) :
    chunkOutputs c f = (chunksOf c.chunk_size (dataRowsOf f)).map
      fun ch => chunkRecords (parseRows (headerOf f) ch) := by
  unfold chunkOutputs
  rw [read_csv_chunks_of_read h c.chunk_size]
  simp only [List.map_map]
  rfl

theorem stream_of_read {c : BigDataCSVConverter} {f : FileInput} {df : DFrame}
    (h : read_csv f = .ok df) :
    stream_json_processor c f = .ok ((chunkOutputs c f).flatten) := by
  unfold stream_json_processor
  rw [read_csv_chunks_of_read h c.chunk_size, chunkOutputs_of_read h]
  simp only [List.map_map]
  rfl

theorem chunk_dfs_total (h : List String) {R : Nat} (hR : 0 < R) (rows : List (List String)) :
    (((chunksOf R rows).map fun ch => parseRows h ch).map fun d => d.rows.length).sum
      = rows.length := by
  rw [List.map_map]
  have h1 : (chunksOf R rows).map ((fun d => d.rows.length) ∘ fun ch => parseRows h ch)
      = (chunksOf R rows).map List.length := by
    apply List.map_congr_left
    intro ch hch
    simp [Function.comp, parseRows_rows_length]
  rw [h1, ← List.length_flatten, chunksOf_flatten hR]

theorem convert_large_ok {c : BigDataCSVConverter} {f : FileInput} {df : DFrame}
    (h : read_csv f = .ok df) (hR : 0 < c.chunk_size) (dir : String) (split : Bool) :
    convert_large_csv c f dir split =
      .ok (⟨(dataRowsOf f).length,
            ((dataRowsOf f).length + c.chunk_size - 1) / c.chunk_size,
            if split then ((dataRowsOf f).length + c.chunk_size - 1) / c.chunk_size else 1⟩,
          if split then
            (chunkOutputs c f).enum.map fun p =>
              (dir ++ "/chunk_" ++ pad4 (p.1 + 1) ++ ".json", p.2)
          else if (chunkOutputs c f).flatten.isEmpty then []
          else [(dir ++ "/complete_data.json", (chunkOutputs c f).flatten)]) := by
  have hcontent := readRaw_ok_content (read_csv_ok_raw h)
  unfold convert_large_csv
  cases hc : f.content with
  | none => exact absurd hc hcontent
  | some ls0 =>
    unfold process_large_file
    rw [read_csv_chunks_of_read h c.chunk_size]
    simp only
    have hjs : ((chunksOf c.chunk_size (dataRowsOf f)).map fun ch =>
        parseRows (headerOf f) ch).map chunkRecords = chunkOutputs c f := by
      rw [chunkOutputs_of_read h, List.map_map]
      rfl
    have htot : (((chunksOf c.chunk_size (dataRowsOf f)).map fun ch =>
        parseRows (headerOf f) ch).map fun d => d.rows.length).sum
        = (dataRowsOf f).length := chunk_dfs_total (headerOf f) hR (dataRowsOf f)
    have hcnt : ((chunksOf c.chunk_size (dataRowsOf f)).map fun ch =>
        parseRows (headerOf f) ch).length
        = ((dataRowsOf f).length + c.chunk_size - 1) / c.chunk_size := by
      rw [List.length_map, chunksOf_length hR]
    cases split with
    | true => rw [hjs, htot, hcnt]; simp
    | false => rw [hjs, htot, hcnt]; simp

theorem arts_flatten_of_read {c : BigDataCSVConverter} {f : FileInput} {df : DFrame}
    {dir : String} {split : Bool} {st : Stats} {arts : List (String × List Record)}
    (h : read_csv f = .ok df) (hR : 0 < c.chunk_size)
    (hc : convert_large_csv c f dir split = .ok (st, arts)) :
    (arts.map Prod.snd).flatten = (chunkOutputs c f).flatten := by
  rw [convert_large_ok h hR dir split] at hc
  injection hc with hc2
  have harts : arts = (if split then
      (chunkOutputs c f).enum.map fun p =>
        (dir ++ "/chunk_" ++ pad4 (p.1 + 1) ++ ".json", p.2)
    else if (chunkOutputs c f).flatten.isEmpty then []
    else [(dir ++ "/complete_data.json", (chunkOutputs c f).flatten)]) := by
    have := congrArg Prod.snd hc2
    simpa using this.symm
  rw [harts]
  cases split with
  | true =>
    simp only [if_pos]
    rw [List.map_map]
    have h2 : (Prod.snd ∘ fun p : Nat × List Record =>
        (dir ++ "/chunk_" ++ pad4 (p.1 + 1) ++ ".json", p.2)) = Prod.snd := rfl
    rw [h2, List.enum_map_snd]
  | false =>
    simp only [Bool.false_eq_true, if_false]
    cases he : (chunkOutputs c f).flatten.isEmpty with
    | true =>
      rw [List.isEmpty_iff.mp he]
      simp
    | false => simp

/-! ### Remaining readRaw case lemmas (for the error taxonomy) -/

theorem readRaw_empty {f : FileInput} (hc : f.content ≠ none) (he : contentLines f = []) :
    readRaw f = .error (.emptyDataError "No columns to parse from file") := by
  unfold readRaw
  cases hc2 : f.content with
  | none => exact absurd hc2 hc
  | some ls0 =>
    simp only
    rw [he]

theorem readRaw_ragged {f : FileInput} (hc : f.content ≠ none) (he : contentLines f ≠ [])
    (hr : ((rawRowsOf f).any fun r =>
      decide ((headerOf f).length + numIndexCols f < r.length)) = true) :
    readRaw f = .error (.parserError "Error tokenizing data") := by
  unfold readRaw
  cases hc2 : f.content with
  | none => exact absurd hc2 hc
  | some ls0 =>
    simp only
    cases he2 : contentLines f with
    | nil => exact absurd he2 he
    | cons l1 rest => rw [if_pos hr]

theorem readRaw_success {f : FileInput} (hc : f.content ≠ none) (he : contentLines f ≠ [])
    (hr : ((rawRowsOf f).any fun r =>
      decide ((headerOf f).length + numIndexCols f < r.length)) = false) :
    readRaw f = .ok (headerOf f, dataRowsOf f) := by
  unfold readRaw
  cases hc2 : f.content with
  | none => exact absurd hc2 hc
  | some ls0 =>
    simp only
    cases he2 : contentLines f with
    | nil => exact absurd he2 he
    | cons l1 rest => rw [if_neg (by rw [hr]; simp)]

/-! ### Claim theorems -/

/-- C1: for every CSV file and every valid zero-based row index i, the
single-row conversion csv_row_to_json returns exactly the i-th record of the
whole-file conversion csv_to_json_formatter: same keys, same key order, same
values. -/
theorem c1_row_equals_all (f : FileInput) (rs : List Record) (i : Nat)
    (hfmt : csv_to_json_formatter f = .ok rs) (hi : i < rs.length) :
    csv_row_to_json f (i : Int) = .ok (rs.getD i []) := by
  have hex : ∃ df, read_csv f = .ok df := by
    unfold csv_to_json_formatter at hfmt
    cases hr : read_csv f with
    | error e => rw [hr] at hfmt; exact absurd hfmt (by simp)
    | ok df => exact ⟨df, rfl⟩
  obtain ⟨df, hr⟩ := hex
  have hrs : rs = (dataRowsOf f).map (formatRow (headerOf f) (dataRowsOf f)) := by
    have h2 := formatter_records f hr
    rw [hfmt] at h2
    exact Except.ok.inj h2
  have hdf := read_csv_ok_df hr
  have hlen : df.rows.length = (dataRowsOf f).length := by
    rw [hdf, parseRows_rows_length]
  have hi2 : i < (dataRowsOf f).length := by
    rw [hrs, List.length_map] at hi
    exact hi
  unfold csv_row_to_json
  rw [hr]
  simp only
  rw [if_neg (by omega)]
  simp only
  congr 1
  rw [Int.toNat_natCast, hrs,
    getD_map_lt (formatRow (headerOf f) (dataRowsOf f)) _ hi2 _ [],
    hdf, parseRows_header, parseRows_rows,
    getD_map_lt (parseRow (headerOf f) (dataRowsOf f)) _ hi2 _ []]
  rfl

/-- C1 witness: the row at index 1 of a two-row file, obtained through the
single-row conversion, is the second record of the whole-file conversion. -/
theorem c1_row_equals_all_witness :
    csv_row_to_json ⟨"train.csv", some ["A,B", "1,x", "2,"]⟩ 1 =
      .ok [("A", Value.int 2), ("B", Value.null)] := by
  have h := c1_row_equals_all ⟨"train.csv", some ["A,B", "1,x", "2,"]⟩
    [[("A", Value.int 1), ("B", Value.str "x")], [("A", Value.int 2), ("B", Value.null)]]
    1 (by decide) (by decide)
  simpa using h

/-- C4 (amended): csv_row_to_json fails exactly when the index is out of
range, but the IndexError raised inside the try block is swallowed by the
catch-all handler and surfaces as a plain Exception (the ProcessingError
kind) whose message records the valid range though not the offending index;
indices inside the range, including both boundaries, succeed. -/
theorem c4_row_index_errors (f : FileInput) (df : DFrame) (i : Int)
    (hread : read_csv f = .ok df) :
    ((i < 0 ∨ (df.rows.length : Int) ≤ i) →
      csv_row_to_json f i = .error (.exception
        ("CSV 파일 처리 중 오류가 발생했습니다: " ++
          ("행 인덱스가 범위를 벗어났습니다. 유효 범위: 0-" ++
            toString ((df.rows.length : Int) - 1))))) ∧
    ((0 ≤ i ∧ i < (df.rows.length : Int)) →
      csv_row_to_json f i =
        .ok (df.header.zip ((df.rows.getD i.toNat []).map notnullNone))) := by
  constructor
  · intro hout
    unfold csv_row_to_json
    rw [hread]
    simp only
    rw [if_pos hout]
    rfl
  · intro hin
    unfold csv_row_to_json
    rw [hread]
    simp only
    rw [if_neg (by omega)]

/-- C4 counterexample: on a readable two-row file and index -1 the failure is
a generic Exception, not an IndexError, so the claim's error kind is wrong
(the message also carries only the valid range, not the offending index). -/
theorem c4_counterexample :
    csv_row_to_json ⟨"train.csv", some ["A", "1", "2"]⟩ (-1) =
      .error (.exception
        "CSV 파일 처리 중 오류가 발생했습니다: 행 인덱스가 범위를 벗어났습니다. 유효 범위: 0-1") ∧
    errKind (csv_row_to_json ⟨"train.csv", some ["A", "1", "2"]⟩ (-1)) ≠
      some "IndexError" := by
  decide

/-- C4 witness: on a concrete two-row file both boundary indices succeed and
index 2 (equal to the row count) fails with the wrapped generic exception. -/
theorem c4_row_index_errors_witness :
    csv_row_to_json ⟨"train.csv", some ["A", "1", "2"]⟩ 0 = .ok [("A", Value.int 1)] ∧
    csv_row_to_json ⟨"train.csv", some ["A", "1", "2"]⟩ 1 = .ok [("A", Value.int 2)] ∧
    errKind (csv_row_to_json ⟨"train.csv", some ["A", "1", "2"]⟩ 2) = some "Exception" := by
  refine ⟨?_, ?_, ?_⟩
  · have h := (c4_row_index_errors ⟨"train.csv", some ["A", "1", "2"]⟩
      (parseRows ["A"] [["1"], ["2"]]) 0 (by decide)).2 ⟨by decide, by decide⟩
    simpa using h
  · have h := (c4_row_index_errors ⟨"train.csv", some ["A", "1", "2"]⟩
      (parseRows ["A"] [["1"], ["2"]]) 1 (by decide)).2 ⟨by decide, by decide⟩
    simpa using h
  · have h := (c4_row_index_errors ⟨"train.csv", some ["A", "1", "2"]⟩
      (parseRows ["A"] [["1"], ["2"]]) 2 (by decide)).1 (Or.inr (by decide))
    rw [h]
    rfl

/-- C5 (amended): csv_to_json_formatter fails with FileNotFoundError exactly
when the path does not exist; it fails with the ValueError that replaces
EmptyDataError exactly when the existing file has no non-blank lines at all
(a file whose only line is the header succeeds with zero records, so zero
data rows alone do not raise the empty-input error); it fails with the
generic wrapping Exception exactly when some data row has more fields than
the expected width established by the header and the first data row (a file
whose data rows are uniformly wider than the header is read successfully,
its leading extra columns becoming the row index); and on success it
returns one record per data row. -/
theorem c5_error_taxonomy (f : FileInput) :
    (errKind (csv_to_json_formatter f) = some "FileNotFoundError" ↔ f.content = none) ∧
    (errKind (csv_to_json_formatter f) = some "ValueError" ↔
      (f.content ≠ none ∧ contentLines f = [])) ∧
    (errKind (csv_to_json_formatter f) = some "Exception" ↔
      (f.content ≠ none ∧ contentLines f ≠ [] ∧
        ((rawRowsOf f).any fun r =>
          decide ((headerOf f).length + numIndexCols f < r.length)) = true)) ∧
    (∀ rs, csv_to_json_formatter f = .ok rs → rs.length = (dataRowsOf f).length) := by
  by_cases hc : f.content = none
  · have hfmt : csv_to_json_formatter f =
        .error (.fileNotFoundError ("CSV 파일을 찾을 수 없습니다: " ++ f.path)) := by
      unfold csv_to_json_formatter read_csv
      rw [readRaw_content_none hc]
      rfl
    rw [hfmt]
    refine ⟨iff_of_true rfl hc, iff_of_false (by simp [errKind, PyExc.kind]) fun h => h.1 hc,
      iff_of_false (by simp [errKind, PyExc.kind]) fun h => h.1 hc, ?_⟩
    intro rs hrs
    exact absurd hrs (by simp)
  · by_cases he : contentLines f = []
    · have hfmt : csv_to_json_formatter f = .error (.valueError "CSV 파일이 비어있습니다.") := by
        unfold csv_to_json_formatter read_csv
        rw [readRaw_empty hc he]
        rfl
      rw [hfmt]
      refine ⟨iff_of_false (by simp [errKind, PyExc.kind]) hc, iff_of_true rfl ⟨hc, he⟩,
        iff_of_false (by simp [errKind, PyExc.kind]) fun h => h.2.1 he, ?_⟩
      intro rs hrs
      exact absurd hrs (by simp)
    · cases hragged : (rawRowsOf f).any fun r =>
          decide ((headerOf f).length + numIndexCols f < r.length) with
      | true =>
        have hfmt : csv_to_json_formatter f = .error (.exception
            ("CSV 파일 처리 중 오류가 발생했습니다: " ++ "Error tokenizing data")) := by
          unfold csv_to_json_formatter read_csv
          rw [readRaw_ragged hc he hragged]
          rfl
        rw [hfmt]
        refine ⟨iff_of_false (by simp [errKind, PyExc.kind]) hc,
          iff_of_false (by simp [errKind, PyExc.kind]) fun h => he h.2,
          iff_of_true rfl ⟨hc, he, rfl⟩, ?_⟩
        intro rs hrs
        exact absurd hrs (by simp)
      | false =>
        have hread : read_csv f = .ok (parseRows (headerOf f) (dataRowsOf f)) := by
          unfold read_csv
          rw [readRaw_success hc he hragged]
        have hfmt := formatter_records f hread
        rw [hfmt]
        refine ⟨iff_of_false (by simp [errKind]) hc,
          iff_of_false (by simp [errKind]) fun h => he h.2,
          iff_of_false (by simp [errKind]) fun h => absurd h.2.2 (by simp), ?_⟩
        intro rs hrs
        injection hrs with h2
        rw [← h2, List.length_map]

/-- C5 counterexample: a file consisting of only a header line has zero data
rows, yet the conversion succeeds with the empty record list instead of
failing with the empty-input error, refuting the only-if direction of the
claimed EmptyInput condition. -/
theorem c5_counterexample :
    csv_to_json_formatter ⟨"header_only.csv", some ["A"]⟩ = .ok [] ∧
    (dataRowsOf ⟨"header_only.csv", some ["A"]⟩).length = 0 := by
  decide

/-- C5 witness: a missing path fails with FileNotFoundError, and a readable
two-row file converts to two records. -/
theorem c5_error_taxonomy_witness :
    errKind (csv_to_json_formatter ⟨"missing.csv", none⟩) = some "FileNotFoundError" ∧
    [[("A", Value.int 7)], [("A", Value.int 8)]].length =
      (dataRowsOf ⟨"train.csv", some ["A", "7", "8"]⟩).length :=
  ⟨(c5_error_taxonomy ⟨"missing.csv", none⟩).1.mpr rfl,
    (c5_error_taxonomy ⟨"train.csv", some ["A", "7", "8"]⟩).2.2.2
      [[("A", Value.int 7)], [("A", Value.int 8)]] (by decide)⟩

/-- C9: the max_memory_mb configuration value does not influence behaviour:
two converters that agree on chunk_size and differ arbitrarily in
max_memory_mb produce identical chunked-conversion results (statistics and
written artifacts) and identical streamed record sequences on every file. -/
theorem c9_max_memory_noninterference (c1 c2 : BigDataCSVConverter) (f : FileInput)
    (dir : String) (split : Bool) (h : c1.chunk_size = c2.chunk_size) :
    convert_large_csv c1 f dir split = convert_large_csv c2 f dir split ∧
      stream_json_processor c1 f = stream_json_processor c2 f := by
  obtain ⟨cs1, m1⟩ := c1
  obtain ⟨cs2, m2⟩ := c2
  simp only at h
  subst h
  exact ⟨rfl, rfl⟩

/-- C9 witness: two converters differing only in max_memory_mb give the same
conversion and the same stream on a concrete file. -/
theorem c9_max_memory_noninterference_witness :
    convert_large_csv ⟨2, 100⟩ ⟨"t.csv", some ["A", "1", "2", "3"]⟩ "out" true =
      convert_large_csv ⟨2, 987654⟩ ⟨"t.csv", some ["A", "1", "2", "3"]⟩ "out" true ∧
    stream_json_processor ⟨2, 100⟩ ⟨"t.csv", some ["A", "1", "2", "3"]⟩ =
      stream_json_processor ⟨2, 987654⟩ ⟨"t.csv", some ["A", "1", "2", "3"]⟩ :=
  c9_max_memory_noninterference ⟨2, 100⟩ ⟨2, 987654⟩ ⟨"t.csv", some ["A", "1", "2", "3"]⟩
    "out" true rfl

/-- C10: the row-count estimator samples the byte length of the first
min(1000, lineCount) physical lines with no guard on the sample count: on a
file with at least one line it returns the truncated quotient of the file
size by the average sampled line length, and on a zero-line file it fails
with a division-by-zero error instead of returning a value. -/
theorem c10_estimate_rows (lines : List String) :
    (estimate_total_rows lines = none ↔ lines = []) ∧
    (lines ≠ [] → estimate_total_rows lines =
      some (fileSizeOf lines * (min 1000 lines.length) /
        ((lines.take 1000).map lineBytes).sum)) := by
  constructor
  · unfold estimate_total_rows
    cases lines with
    | nil => simp
    | cons a t => simp
  · intro hne
    unfold estimate_total_rows
    cases lines with
    | nil => exact absurd rfl hne
    | cons a t =>
      rw [if_neg (by simp)]
      simp only [List.length_take, List.length_map, List.length_cons, List.take_cons,
        List.map_cons, List.sum_cons]

/-- C10 witness: a one-line file of three bytes is estimated at one row. -/
theorem c10_estimate_rows_witness : estimate_total_rows ["ab"] = some 1 := by
  rw [(c10_estimate_rows ["ab"]).2 (by decide)]
  decide

/-! ### Success-propagation lemmas -/

theorem formatter_ok_read {f : FileInput} {rs : List Record}
    (h : csv_to_json_formatter f = .ok rs) :
    read_csv f = .ok (parseRows (headerOf f) (dataRowsOf f)) := by
  unfold csv_to_json_formatter at h
  cases hr : read_csv f with
  | error e => rw [hr] at h; exact absurd h (by simp)
  | ok df => rw [read_csv_ok_df hr]

theorem row_ok_read {f : FileInput} {i : Int} {rec : Record}
    (h : csv_row_to_json f i = .ok rec) :
    read_csv f = .ok (parseRows (headerOf f) (dataRowsOf f)) := by
  unfold csv_row_to_json at h
  cases hr : read_csv f with
  | error e => rw [hr] at h; simp at h
  | ok df => rw [read_csv_ok_df hr]

theorem chunks_ok_read {f : FileInput} {R : Nat} {dfs : List DFrame}
    (h : read_csv_chunks f R = .ok dfs) :
    read_csv f = .ok (parseRows (headerOf f) (dataRowsOf f)) := by
  unfold read_csv_chunks at h
  cases hr : readRaw f with
  | error e => rw [hr] at h; exact absurd h (by simp)
  | ok p =>
    have hp := readRaw_ok hr
    subst hp
    unfold read_csv
    rw [hr]

theorem read_csv_chunks_ok_dfs {f : FileInput} {R : Nat} {dfs : List DFrame}
    (h : read_csv_chunks f R = .ok dfs) :
    dfs = (chunksOf R (dataRowsOf f)).map fun ch => parseRows (headerOf f) ch := by
  have hread := chunks_ok_read h
  rw [read_csv_chunks_of_read hread R] at h
  exact (Except.ok.inj h).symm

theorem stream_ok_read {c : BigDataCSVConverter} {f : FileInput} {recs : List Record}
    (h : stream_json_processor c f = .ok recs) :
    read_csv f = .ok (parseRows (headerOf f) (dataRowsOf f)) := by
  unfold stream_json_processor at h
  cases hr : read_csv_chunks f c.chunk_size with
  | error e => rw [hr] at h; exact absurd h (by simp)
  | ok dfs => exact chunks_ok_read hr

theorem convert_ok_read {c : BigDataCSVConverter} {f : FileInput} {dir : String}
    {split : Bool} {p : Stats × List (String × List Record)}
    (h : convert_large_csv c f dir split = .ok p) :
    read_csv f = .ok (parseRows (headerOf f) (dataRowsOf f)) := by
  unfold convert_large_csv at h
  cases hc : f.content with
  | none => rw [hc] at h; exact absurd h (by simp)
  | some ls0 =>
    rw [hc] at h
    simp only at h
    unfold process_large_file at h
    cases hr : read_csv_chunks f c.chunk_size with
    | error e => rw [hr] at h; exact absurd h (by simp)
    | ok dfs => exact chunks_ok_read hr

/-! ### Key-invariant lemmas -/

theorem formatRow_keys (h : List String) (rows : List (List String)) (r : List String) :
    (formatRow h rows r).map Prod.fst = h :=
  List.map_fst_zip _ _ (by simp [parseRow_length])

theorem chunkRow_keys (h : List String) (block : List (List String)) (r : List String) :
    (chunkRow h block r).map Prod.fst = h :=
  List.map_fst_zip _ _ (by simp)

theorem chunkRecords_length (df : DFrame) : (chunkRecords df).length = df.rows.length := by
  simp [chunkRecords, toRecords, dfWhereNotNull, optimize_dtypes]

theorem chunkOutputs_keys {c : BigDataCSVConverter} {f : FileInput} {df : DFrame}
    (hread : read_csv f = .ok df) {out : List Record} (hout : out ∈ chunkOutputs c f)
    {rec : Record} (hrec : rec ∈ out) : rec.map Prod.fst = headerOf f := by
  rw [chunkOutputs_of_read hread] at hout
  obtain ⟨ch, hch, hfl⟩ := List.mem_map.mp hout
  rw [← hfl, chunkRecords_parseRows] at hrec
  obtain ⟨r, hr, hrfl⟩ := List.mem_map.mp hrec
  rw [← hrfl]
  exact chunkRow_keys (headerOf f) ch r

theorem row_ok_value {f : FileInput} {i : Nat} {rec : Record}
    (h : csv_row_to_json f (i : Int) = .ok rec) (hi : i < (dataRowsOf f).length) :
    rec = formatRow (headerOf f) (dataRowsOf f) ((dataRowsOf f).getD i []) := by
  have hread := row_ok_read h
  unfold csv_row_to_json at h
  rw [hread] at h
  simp only at h
  rw [if_neg (by rw [parseRows_rows_length]; omega)] at h
  simp only at h
  rw [Int.toNat_natCast] at h
  have h2 := (Except.ok.inj h).symm
  rw [h2, parseRows_header, parseRows_rows,
    getD_map_lt (parseRow (headerOf f) (dataRowsOf f)) _ hi _ []]
  rfl

theorem convert_arts_mem {c : BigDataCSVConverter} {f : FileInput} {dir : String}
    {split : Bool} {st : Stats} {arts : List (String × List Record)}
    (hconv : convert_large_csv c f dir split = .ok (st, arts)) :
    ∀ a ∈ arts, ∀ rec ∈ a.2, rec ∈ (chunkOutputs c f).flatten := by
  unfold convert_large_csv at hconv
  cases hc : f.content with
  | none => rw [hc] at hconv; exact absurd hconv (by simp)
  | some ls0 =>
    rw [hc] at hconv
    simp only at hconv
    unfold process_large_file at hconv
    cases hr : read_csv_chunks f c.chunk_size with
    | error e => rw [hr] at hconv; exact absurd hconv (by simp)
    | ok dfs =>
      rw [hr] at hconv
      simp only at hconv
      have hjs : chunkOutputs c f = dfs.map chunkRecords := by
        unfold chunkOutputs
        rw [hr]
      rw [hjs]
      cases split with
      | true =>
        simp only [if_pos] at hconv
        have harts : arts = (dfs.map chunkRecords).enum.map fun p =>
            (dir ++ "/chunk_" ++ pad4 (p.1 + 1) ++ ".json", p.2) := by
          have h2 := congrArg Prod.snd (Except.ok.inj hconv)
          simpa using h2.symm
        intro a ha rec hrec
        rw [harts] at ha
        obtain ⟨p, hp, hpa⟩ := List.mem_map.mp ha
        have hsnd : p.2 ∈ dfs.map chunkRecords := by
          have := List.mem_map_of_mem Prod.snd hp
          rwa [List.enum_map_snd] at this
        refine List.mem_flatten.mpr ⟨p.2, hsnd, ?_⟩
        rw [← hpa] at hrec
        exact hrec
      | false =>
        intro a ha rec hrec
        cases he : (dfs.map chunkRecords).flatten.isEmpty with
        | true =>
          rw [he] at hconv
          simp only [if_pos] at hconv
          have harts : arts = [] := by
            have h2 := congrArg Prod.snd (Except.ok.inj hconv)
            simpa using h2.symm
          rw [harts] at ha
          exact absurd ha (by simp)
        | false =>
          rw [he] at hconv
          simp only [Bool.false_eq_true, if_false] at hconv
          have harts : arts = [(dir ++ "/complete_data.json", (dfs.map chunkRecords).flatten)] := by
            have h2 := congrArg Prod.snd (Except.ok.inj hconv)
            simpa using h2.symm
          rw [harts] at ha
          have ha2 : a = (dir ++ "/complete_data.json", (dfs.map chunkRecords).flatten) := by
            simpa using ha
          rw [ha2] at hrec
          exact hrec

/-- C8: every record produced by any of the conversion operations (whole
file, single row, streaming, chunked conversion artifacts) has exactly the
key set of the source header row, in header order. -/
theorem c8_keys_invariant (f : FileInput) (c : BigDataCSVConverter) (i : Int) :
    (∀ rs, csv_to_json_formatter f = .ok rs →
      ∀ rec ∈ rs, rec.map Prod.fst = headerOf f) ∧
    (∀ rec, csv_row_to_json f i = .ok rec → rec.map Prod.fst = headerOf f) ∧
    (∀ recs, stream_json_processor c f = .ok recs →
      ∀ rec ∈ recs, rec.map Prod.fst = headerOf f) ∧
    (∀ dir split st arts, convert_large_csv c f dir split = .ok (st, arts) →
      ∀ a ∈ arts, ∀ rec ∈ a.2, rec.map Prod.fst = headerOf f) := by
  refine ⟨?_, ?_, ?_, ?_⟩
  · intro rs hrs rec hrec
    have hread := formatter_ok_read hrs
    have hform := formatter_records f hread
    rw [hrs] at hform
    rw [Except.ok.inj hform] at hrec
    obtain ⟨r, hr, hrfl⟩ := List.mem_map.mp hrec
    rw [← hrfl]
    exact formatRow_keys (headerOf f) (dataRowsOf f) r
  · intro rec hrec
    have hread := row_ok_read hrec
    unfold csv_row_to_json at hrec
    rw [hread] at hrec
    simp only at hrec
    split at hrec
    · exact absurd hrec (by simp)
    · rename_i hcond
      split at hcond
      · exact absurd hcond (by simp)
      · rename_i hcond2
        rw [← Except.ok.inj hrec, ← Except.ok.inj hcond, parseRows_header]
        apply List.map_fst_zip
        rw [List.length_map]
        have hlt : i.toNat < (dataRowsOf f).length := by
          rw [parseRows_rows_length] at hcond2
          omega
        rw [parseRows_rows, getD_map_lt (parseRow (headerOf f) (dataRowsOf f)) _ hlt _ [],
          parseRow_length]
  · intro recs hrecs rec hrec
    have hread := stream_ok_read hrecs
    rw [stream_of_read hread] at hrecs
    rw [← Except.ok.inj hrecs] at hrec
    obtain ⟨out, hout, hrec2⟩ := List.mem_flatten.mp hrec
    exact chunkOutputs_keys hread hout hrec2
  · intro dir split st arts hconv a ha rec hrec
    have hread := convert_ok_read hconv
    have hin : rec ∈ (chunkOutputs c f).flatten := convert_arts_mem hconv a ha rec hrec
    obtain ⟨out, hout, hrec2⟩ := List.mem_flatten.mp hin
    exact chunkOutputs_keys hread hout hrec2

/-- C8 witness: on a concrete file every record of the whole-file conversion
and the single-row conversion carries the header keys in header order. -/
theorem c8_keys_invariant_witness :
    ([("A", Value.int 1), ("B", Value.null)].map Prod.fst =
      headerOf ⟨"t.csv", some ["A,B", "1,", "2,x"]⟩) ∧
    ([("A", Value.int 2), ("B", Value.str "x")].map Prod.fst =
      headerOf ⟨"t.csv", some ["A,B", "1,", "2,x"]⟩) := by
  refine ⟨?_, ?_⟩
  · exact (c8_keys_invariant ⟨"t.csv", some ["A,B", "1,", "2,x"]⟩ ⟨2, 500⟩ 0).1
      [[("A", Value.int 1), ("B", Value.null)], [("A", Value.int 2), ("B", Value.str "x")]]
      (by decide) [("A", Value.int 1), ("B", Value.null)] (by decide)
  · exact (c8_keys_invariant ⟨"t.csv", some ["A,B", "1,", "2,x"]⟩ ⟨2, 500⟩ 1).2.1
      [("A", Value.int 2), ("B", Value.str "x")] (by decide)

theorem chunk_flatten_missing {f : FileInput} {c : BigDataCSVConverter} {i j : Nat}
    (hR : 0 < c.chunk_size)
    (hread : read_csv f = .ok (parseRows (headerOf f) (dataRowsOf f)))
    (hj : j < (headerOf f).length) (hi : i < (dataRowsOf f).length)
    (hmiss : isMissing (((dataRowsOf f).getD i []).getD j "") = true) :
    ((chunkOutputs c f).flatten.getD i []).getD j ("", .null) =
      ((headerOf f).getD j "", Value.null) := by
  rw [chunkOutputs_of_read hread]
  have hch := chunksOf_flatten (R := c.chunk_size) hR (dataRowsOf f)
  have hP := flatten_map_getD (fun ch => chunkRecords (parseRows (headerOf f) ch))
    (fun r out => isMissing (r.getD j "") = true →
      out.getD j ("", .null) = ((headerOf f).getD j "", Value.null)) [] []
    (fun ch => by
      show (chunkRecords (parseRows (headerOf f) ch)).length = ch.length
      rw [chunkRecords_parseRows]
      simp)
    (fun ch k hk => by
      show isMissing ((ch.getD k []).getD j "") = true →
        ((chunkRecords (parseRows (headerOf f) ch)).getD k []).getD j ("", .null) =
          ((headerOf f).getD j "", Value.null)
      rw [chunkRecords_parseRows, getD_map_lt (chunkRow (headerOf f) ch) _ hk _ []]
      intro hm
      exact chunkRow_missing hj (getD_mem_colCells ch hk j) hm)
    (chunksOf c.chunk_size (dataRowsOf f)) i (by rw [hch]; exact hi)
  rw [hch] at hP
  exact hP hmiss

/-- C2: every empty or absent source cell comes out of every conversion
operation (whole file, single row, streaming, chunked conversion artifacts)
as an explicit null field, never as the empty string and never as the NaN
marker that pandas uses internally before the where-notnull step. -/
theorem c2_missing_cells_null (f : FileInput) (c : BigDataCSVConverter) (i j : Nat)
    (hR : 0 < c.chunk_size)
    (hj : j < (headerOf f).length)
    (hi : i < (dataRowsOf f).length)
    (hmiss : isMissing (((dataRowsOf f).getD i []).getD j "") = true) :
    (∀ rs, csv_to_json_formatter f = .ok rs →
      (rs.getD i []).getD j ("", .null) = ((headerOf f).getD j "", Value.null)) ∧
    (∀ rec, csv_row_to_json f (i : Int) = .ok rec →
      rec.getD j ("", .null) = ((headerOf f).getD j "", Value.null)) ∧
    (∀ recs, stream_json_processor c f = .ok recs →
      (recs.getD i []).getD j ("", .null) = ((headerOf f).getD j "", Value.null)) ∧
    (∀ dir split st arts, convert_large_csv c f dir split = .ok (st, arts) →
      ((arts.map Prod.snd).flatten.getD i []).getD j ("", .null) =
        ((headerOf f).getD j "", Value.null)) := by
  refine ⟨?_, ?_, ?_, ?_⟩
  · intro rs hrs
    have hread := formatter_ok_read hrs
    have hform := formatter_records f hread
    rw [hrs] at hform
    rw [Except.ok.inj hform,
      getD_map_lt (formatRow (headerOf f) (dataRowsOf f)) _ hi _ []]
    exact formatRow_missing hj (getD_mem_colCells (dataRowsOf f) hi j) hmiss
  · intro rec hrec
    rw [row_ok_value hrec hi]
    exact formatRow_missing hj (getD_mem_colCells (dataRowsOf f) hi j) hmiss
  · intro recs hrecs
    have hread := stream_ok_read hrecs
    rw [stream_of_read hread] at hrecs
    rw [← Except.ok.inj hrecs]
    exact chunk_flatten_missing hR hread hj hi hmiss
  · intro dir split st arts hconv
    have hread := convert_ok_read hconv
    rw [arts_flatten_of_read hread hR hconv]
    exact chunk_flatten_missing hR hread hj hi hmiss

/-- C2 witness: the empty second cell of the first data row converts to an
explicit null field in the whole-file conversion of a concrete file. -/
theorem c2_missing_cells_null_witness :
    csv_to_json_formatter ⟨"t.csv", some ["A,B", "1,", "2,x"]⟩ =
      .ok [[("A", Value.int 1), ("B", Value.null)],
        [("A", Value.int 2), ("B", Value.str "x")]] ∧
    (([[("A", Value.int 1), ("B", Value.null)],
        [("A", Value.int 2), ("B", Value.str "x")]].getD 0 []).getD 1 ("", Value.null)) =
      ("B", Value.null) := by
  refine ⟨by decide, ?_⟩
  have h := (c2_missing_cells_null ⟨"t.csv", some ["A,B", "1,", "2,x"]⟩ ⟨2, 500⟩ 0 1
    (by decide) (by decide) (by decide) (by decide)).1
    [[("A", Value.int 1), ("B", Value.null)], [("A", Value.int 2), ("B", Value.str "x")]]
    (by decide)
  simpa using h

/-! ### Value preservation lemmas for the optimisation pass -/

theorem optValue_int64 (v : Value) : optValue .int64 v = v := by cases v <;> rfl

theorem optValue_obj (v : Value) : optValue .obj v = v := by cases v <;> rfl

theorem optValue_int (dt : Dtype) (n : Int) : optValue dt (.int n) = .int n := by
  cases dt <;> rfl

theorem toFloat32_zero : toFloat32 ⟨0, 0⟩ = ⟨0, 0⟩ := by decide

theorem optValue_float64_fix {v : Value} (hfix : ∀ d, v = .float d → toFloat32 d = d) :
    optValue .float64 v = v := by
  cases v with
  | float d =>
    show Value.float (toFloat32 d) = Value.float d
    rw [hfix d rfl]
  | int n => rfl
  | nan => rfl
  | str s => rfl
  | null => rfl

theorem parseCell_asFloat_cases (s : String) :
    parseCell .asFloat s = .nan ∨
      parseCell .asFloat s = .float ((parseDecC s).getD ⟨0, 0⟩) := by
  unfold parseCell
  by_cases h : isMissing s = true
  · left
    rw [if_pos h]
  · right
    rw [if_neg h]

/-- C3 (amended): concatenating, in order, the record sequences the chunked
converter emits equals the whole-file conversion's record sequence provided
two conditions the code does not guarantee in general: every chunk infers
the same parse mode per column as the whole file does (chunked reads infer
dtypes per chunk), and single-precision narrowing fixes every float value of
the file (the chunked path casts float64 columns to float32 while the
whole-file path does not).  In particular the equality holds for files
without float columns. -/
theorem c3_chunk_concat (c : BigDataCSVConverter) (f : FileInput) (rs : List Record)
    (hR : 0 < c.chunk_size)
    (hfmt : csv_to_json_formatter f = .ok rs)
    (hmode : ∀ ch ∈ chunksOf c.chunk_size (dataRowsOf f), ∀ j < (headerOf f).length,
      inferMode (colCells ch j) = inferMode (colCells (dataRowsOf f) j))
    (hfloat : ∀ j < (headerOf f).length,
      inferMode (colCells (dataRowsOf f) j) = .asFloat →
      ∀ s ∈ colCells (dataRowsOf f) j, (parseDecC s).map toFloat32 = parseDecC s) :
    (chunkOutputs c f).flatten = rs ∧
    (∀ dir st arts, convert_large_csv c f dir true = .ok (st, arts) →
      (arts.map Prod.snd).flatten = rs) := by
  have hread := formatter_ok_read hfmt
  have hform := formatter_records f hread
  rw [hfmt] at hform
  have hrs := Except.ok.inj hform
  have hmain : (chunkOutputs c f).flatten = rs := by
    rw [chunkOutputs_of_read hread, hrs]
    have hF : ∀ ch ∈ chunksOf c.chunk_size (dataRowsOf f),
        chunkRecords (parseRows (headerOf f) ch) =
          ch.map (formatRow (headerOf f) (dataRowsOf f)) := by
      intro ch hch
      rw [chunkRecords_parseRows]
      apply List.map_congr_left
      intro r hr
      unfold chunkRow formatRow parseRow
      congr 1
      congr 1
      apply List.map_congr_left
      intro j hjr
      rw [List.mem_range] at hjr
      rw [hmode ch hch j hjr]
      cases hm : inferMode (colCells (dataRowsOf f) j) with
      | asInt => exact optValue_int64 _
      | asObj => exact optValue_obj _
      | asFloat =>
        show optValue .float64 (parseCell .asFloat (r.getD j "")) =
          parseCell .asFloat (r.getD j "")
        have hmem : r.getD j "" ∈ colCells (dataRowsOf f) j :=
          List.mem_map.mpr ⟨r, chunksOf_mem_mem hR hch hr, rfl⟩
        have hfix := hfloat j hjr hm _ hmem
        apply optValue_float64_fix
        intro d hd
        rcases parseCell_asFloat_cases (r.getD j "") with hcase | hcase
        · rw [hcase] at hd
          exact absurd hd (by simp)
        · rw [hcase] at hd
          have hd2 := Value.float.inj hd
          cases hpc : parseDecC (r.getD j "") with
          | none =>
            rw [hpc] at hd2
            rw [← hd2]
            exact toFloat32_zero
          | some d2 =>
            rw [hpc] at hd2 hfix
            simp only [Option.map_some'] at hfix
            rw [← hd2]
            exact Option.some.inj hfix
    have hmaps : (chunksOf c.chunk_size (dataRowsOf f)).map
        (fun ch => chunkRecords (parseRows (headerOf f) ch)) =
        (chunksOf c.chunk_size (dataRowsOf f)).map
          (fun ch => ch.map (formatRow (headerOf f) (dataRowsOf f))) :=
      List.map_congr_left hF
    rw [hmaps, ← List.map_flatten, chunksOf_flatten hR]
  refine ⟨hmain, ?_⟩
  intro dir st arts hconv
  rw [arts_flatten_of_read hread hR hconv]
  exact hmain

/-- C3 counterexample: on a one-column float file holding the single value
0.1 with chunk size 1, the chunked conversion emits the float32-narrowed
value (exactly 13421773 / 2 ^ 27) while the whole-file conversion keeps 0.1,
so the concatenated chunk output differs from the whole-file record
sequence. -/
theorem c3_counterexample :
    csv_to_json_formatter ⟨"c3.csv", some ["Fare", "0.1"]⟩ =
      .ok [[("Fare", Value.float ⟨1, 1⟩)]] ∧
    (convert_large_csv ⟨1, 500⟩ ⟨"c3.csv", some ["Fare", "0.1"]⟩ "output" true).map
      (fun p => (p.2.map Prod.snd).flatten) =
      .ok [[("Fare", Value.float ⟨100000001490116119384765625, 27⟩)]] ∧
    Value.float (⟨100000001490116119384765625, 27⟩ : Dec) ≠ Value.float ⟨1, 1⟩ := by
  decide

/-- C3 witness: on a file with an integer column and a text column the two
hypotheses hold and the concatenated chunk outputs equal the whole-file
conversion. -/
theorem c3_chunk_concat_witness :
    (chunkOutputs ⟨2, 500⟩ ⟨"t.csv", some ["A,B", "1,x", "2,y", "3,z"]⟩).flatten =
      [[("A", Value.int 1), ("B", Value.str "x")],
        [("A", Value.int 2), ("B", Value.str "y")],
        [("A", Value.int 3), ("B", Value.str "z")]] :=
  (c3_chunk_concat ⟨2, 500⟩ ⟨"t.csv", some ["A,B", "1,x", "2,y", "3,z"]⟩
    [[("A", Value.int 1), ("B", Value.str "x")],
      [("A", Value.int 2), ("B", Value.str "y")],
      [("A", Value.int 3), ("B", Value.str "z")]]
    (by decide) (by decide) (by decide) (by decide)).1

/-! ### C6 support -/

theorem chunkOutputs_flatten_length {c : BigDataCSVConverter} {f : FileInput} {df : DFrame}
    (hread : read_csv f = .ok df) (hR : 0 < c.chunk_size) :
    (chunkOutputs c f).flatten.length = (dataRowsOf f).length := by
  rw [chunkOutputs_of_read hread, List.length_flatten, List.map_map]
  have h1 : (chunksOf c.chunk_size (dataRowsOf f)).map
      (List.length ∘ fun ch => chunkRecords (parseRows (headerOf f) ch)) =
      (chunksOf c.chunk_size (dataRowsOf f)).map List.length := by
    apply List.map_congr_left
    intro ch hch
    simp [Function.comp, chunkRecords_length, parseRows_rows_length]
  rw [h1, ← List.length_flatten, chunksOf_flatten hR]

/-- C6: on a readable CSV of N data rows (N positive) with chunk size R, the
chunked conversion reports total_rows = N and chunk_count = ceil(N / R); with
split files it writes chunk_count artifacts, the k-th (1-based) named
chunk_kkkk.json with a 4-digit zero-padded number and holding exactly the
k-th chunk's records; without split files it reports one output file and
writes the single complete_data.json holding all records. -/
theorem c6_stats_and_artifacts (c : BigDataCSVConverter) (f : FileInput) (dir : String)
    (df : DFrame) (hread : read_csv f = .ok df) (hR : 0 < c.chunk_size)
    (hN : 0 < (dataRowsOf f).length) :
    (convert_large_csv c f dir true = .ok
      (⟨(dataRowsOf f).length,
        ((dataRowsOf f).length + c.chunk_size - 1) / c.chunk_size,
        ((dataRowsOf f).length + c.chunk_size - 1) / c.chunk_size⟩,
        (chunkOutputs c f).enum.map fun p =>
          (dir ++ "/chunk_" ++ pad4 (p.1 + 1) ++ ".json", p.2))) ∧
    (chunkOutputs c f).length =
      ((dataRowsOf f).length + c.chunk_size - 1) / c.chunk_size ∧
    convert_large_csv c f dir false = .ok
      (⟨(dataRowsOf f).length,
        ((dataRowsOf f).length + c.chunk_size - 1) / c.chunk_size, 1⟩,
        [(dir ++ "/complete_data.json", (chunkOutputs c f).flatten)]) := by
  have hconv := convert_large_ok hread hR dir
  refine ⟨?_, ?_, ?_⟩
  · rw [hconv true]
    simp
  · rw [chunkOutputs_of_read hread, List.length_map, chunksOf_length hR]
  · rw [hconv false]
    have hne : ¬ ((chunkOutputs c f).flatten.isEmpty = true) := by
      rw [List.isEmpty_iff]
      intro hnil
      have hlen := chunkOutputs_flatten_length hread hR
      rw [hnil] at hlen
      simp at hlen
      omega
    simp [hne]

/-- C6 witness: a three-row file with chunk size 2 yields two chunks, the
split conversion writes chunk_0001.json and chunk_0002.json, and the
unsplit conversion writes one complete_data.json with all three records. -/
theorem c6_stats_and_artifacts_witness :
    convert_large_csv ⟨2, 500⟩ ⟨"t.csv", some ["A", "1", "2", "3"]⟩ "out" true = .ok
      (⟨3, 2, 2⟩,
        [("out/chunk_0001.json", [[("A", Value.int 1)], [("A", Value.int 2)]]),
          ("out/chunk_0002.json", [[("A", Value.int 3)]])]) ∧
    convert_large_csv ⟨2, 500⟩ ⟨"t.csv", some ["A", "1", "2", "3"]⟩ "out" false = .ok
      (⟨3, 2, 1⟩,
        [("out/complete_data.json",
          [[("A", Value.int 1)], [("A", Value.int 2)], [("A", Value.int 3)]])]) := by
  have h := c6_stats_and_artifacts ⟨2, 500⟩ ⟨"t.csv", some ["A", "1", "2", "3"]⟩ "out"
    (parseRows ["A"] [["1"], ["2"], ["3"]]) (by decide) (by decide) (by decide)
  refine ⟨?_, ?_⟩
  · rw [h.1]
    decide
  · rw [h.2.2]
    decide

/-! ### C7 support -/

/-- The integer entries of the j-th column of a dataframe. -/
def colIntsAt (df : DFrame) (j : Nat) : List Int := intCells (colVals df.rows j)

/-- C7 (amended): the dtype optimisation narrows each int64 column by its
minimum and maximum: all-non-negative with max below 256 becomes uint8, with
max below 65536 becomes uint16; a column with negative values becomes int8
only when its minimum is strictly greater than -128 (so a column attaining
exactly -128, though it fits int8, becomes int16) and int16 only when its
minimum is strictly greater than -32768; every float64 column becomes
float32; and every integer cell's numeric value is identical before and
after the pass. -/
theorem c7_dtype_narrowing (df : DFrame) (j : Nat) (hj : j < df.header.length) :
    ((df.dtypes.getD j .obj = .int64 → (colIntsAt df j).isEmpty = false →
      (((0 ≤ colMin (colIntsAt df j) → colMax (colIntsAt df j) < 256 →
        (optimize_dtypes df).dtypes.getD j .obj = .uint8) ∧
        (0 ≤ colMin (colIntsAt df j) → 256 ≤ colMax (colIntsAt df j) →
          colMax (colIntsAt df j) < 65536 →
          (optimize_dtypes df).dtypes.getD j .obj = .uint16)) ∧
        (colMin (colIntsAt df j) < 0 → -128 < colMin (colIntsAt df j) →
          colMax (colIntsAt df j) < 128 →
          (optimize_dtypes df).dtypes.getD j .obj = .int8) ∧
        (colMin (colIntsAt df j) < 0 →
          ¬(-128 < colMin (colIntsAt df j) ∧ colMax (colIntsAt df j) < 128) →
          -32768 < colMin (colIntsAt df j) → colMax (colIntsAt df j) < 32768 →
          (optimize_dtypes df).dtypes.getD j .obj = .int16))) ∧
    (df.dtypes.getD j .obj = .float64 →
      (optimize_dtypes df).dtypes.getD j .obj = .float32) ∧
    (∀ i n, (df.rows.getD i []).getD j .null = .int n →
      ((optimize_dtypes df).rows.getD i []).getD j .null = .int n)) := by
  have hdt := optimize_dtypes_dtypes_getD df hj
  refine ⟨?_, ?_, ?_⟩
  · intro hint hne
    rw [hdt, hint]
    simp only [colIntsAt] at hne ⊢
    unfold optColDtype
    rw [if_neg (by simp [hne])]
    unfold narrowIntDtype
    refine ⟨⟨?_, ?_⟩, ?_, ?_⟩
    · intro hmn hmx
      rw [if_pos hmn, if_pos hmx]
    · intro hmn hmx1 hmx2
      rw [if_pos hmn, if_neg (by omega), if_pos hmx2]
    · intro hmn hmn2 hmx
      rw [if_neg (by omega), if_pos ⟨hmn2, hmx⟩]
    · intro hmn hnot hmn2 hmx
      rw [if_neg (by omega), if_neg hnot, if_pos ⟨hmn2, hmx⟩]
  · intro hfl
    rw [hdt, hfl]
    rfl
  · intro i n hcell
    rcases Nat.lt_or_ge i df.rows.length with hil | hig
    · rw [optimize_dtypes_cell df hil hj, hcell, optValue_int]
    · rw [List.getD_eq_default _ _ hig] at hcell
      exact absurd hcell (by simp)

/-- C7 counterexample: a one-cell int64 column holding exactly -128 fits the
8-bit signed type, but the optimisation's strict lower bound sends it to
int16, so the smallest lossless width is not chosen. -/
theorem c7_counterexample :
    (optimize_dtypes (parseRows ["A"] [["-128"]])).dtypes = [Dtype.int16] ∧
    (-128 ≤ (-128 : Int) ∧ (-128 : Int) ≤ 127) ∧
    Dtype.int16 ≠ Dtype.int8 := by
  decide

/-- C7 witness: a non-negative int64 column with maximum 300 narrows to
uint16, a float64 column narrows to float32, and the integer cell 300 is
unchanged by the pass. -/
theorem c7_dtype_narrowing_witness :
    (optimize_dtypes (parseRows ["A", "B"] [["1", "1.5"], ["300", ""]])).dtypes.getD 0 .obj =
      .uint16 ∧
    (optimize_dtypes (parseRows ["A", "B"] [["1", "1.5"], ["300", ""]])).dtypes.getD 1 .obj =
      .float32 ∧
    ((optimize_dtypes (parseRows ["A", "B"] [["1", "1.5"], ["300", ""]])).rows.getD 1
      []).getD 0 .null = Value.int 300 := by
  refine ⟨?_, ?_, ?_⟩
  · exact (((c7_dtype_narrowing (parseRows ["A", "B"] [["1", "1.5"], ["300", ""]]) 0
      (by decide)).1 (by decide) (by decide)).1).2 (by decide) (by decide) (by decide)
  · exact ((c7_dtype_narrowing (parseRows ["A", "B"] [["1", "1.5"], ["300", ""]]) 1
      (by decide)).2.1) (by decide)
  · exact ((c7_dtype_narrowing (parseRows ["A", "B"] [["1", "1.5"], ["300", ""]]) 0
      (by decide)).2.2) 1 300 (by decide)

